import Mathlib

/-!
Verification of the resource-sharing ledger service (`main.py`).

The service keeps three module-level dictionaries (`_mem_users`, `_mem_items`,
`_mem_loans`) and exposes handlers `create_user`, `create_item`, `borrow_item`
and `return_item` over them.  We model the in-memory backend (`USE_MONGO =
False`, the default when no connection string is configured); the Mongo branch
mirrors the same reads and writes through a driver.

Python dictionaries keyed by id strings are modelled as association lists:
`dictInsert` is `d[k] = v` (replace in place or append), `alookup` is
`d.get(k)`, and `updateAt` is the in-place mutation of the dict returned by a
lookup.  Raising `HTTPException` is modelled by returning the current store
together with an `Except.error`; the store component is the state the module
dictionaries are left in.
-/

namespace Ledger

/-- `POINTS_FOR_LENDING = 10` from the source. -/
def POINTS_FOR_LENDING : Int := 10

/-- `POINTS_FOR_BORROW = 5` from the source. -/
def POINTS_FOR_BORROW : Int := 5

/-- A stored user document: `{"name": ..., "email": ..., "points": ...}`
(the `created_at` timestamp is not modelled). -/
structure UserDoc where
  name : String
  email : String
  points : Int
deriving Repr, DecidableEq

/-- A stored item document:
`{"name": ..., "description": ..., "owner_id": ..., "available": ...}`. -/
structure ItemDoc where
  name : String
  description : Option String
  owner_id : String
  available : Bool
deriving Repr, DecidableEq

/-- A stored loan document: `{"item_id": ..., "borrower_id": ...}`
(the `borrowed_at` timestamp is not modelled). -/
structure LoanDoc where
  item_id : String
  borrower_id : String
deriving Repr, DecidableEq

/-- Request body of `POST /items/` (`ItemCreate` in the source). -/
structure ItemCreate where
  name : String
  description : Option String
  owner_id : String
deriving Repr, DecidableEq

/-- Request body of `POST /loans/` (`LoanCreate` in the source). -/
structure LoanCreate where
  item_id : String
  borrower_id : String
deriving Repr, DecidableEq

/-- The error taxonomy of the HTTP layer: 422 validation, 404 not found,
409 conflict, 403 insufficient points, 500 internal. -/
inductive ApiError where
  | validation
  | notFound
  | conflict
  | insufficientPoints
  | internal
deriving Repr, DecidableEq

deriving instance DecidableEq for Except

/-- The module state: the three dictionaries `_mem_users`, `_mem_items`,
`_mem_loans`, as association lists in insertion order. -/
structure Store where
  users : List (String × UserDoc)
  items : List (String × ItemDoc)
  loans : List (String × LoanDoc)
deriving Repr, DecidableEq

/-- The state at process start: all three dictionaries empty. -/
def emptyStore : Store := ⟨[], [], []⟩

/-- Dictionary lookup `d.get(k)`: the value at the first matching key. -/
def alookup (k : String) : List (String × α) → Option α
  | [] => none
  | (k₁, v) :: t => if k₁ = k then some v else alookup k t

/-- Dictionary assignment `d[k] = v`: replace the value at an existing key,
otherwise append a fresh entry. -/
def dictInsert (k : String) (v : α) : List (String × α) → List (String × α)
  | [] => [(k, v)]
  | (k₁, v₁) :: t => if k₁ = k then (k, v) :: t else (k₁, v₁) :: dictInsert k v t

/-- In-place mutation of the document found at key `k` (Python mutates the
dict object returned by `get`). -/
def updateAt (k : String) (f : α → α) : List (String × α) → List (String × α)
  | [] => []
  | (k₁, v) :: t => if k₁ = k then (k₁, f v) :: t else (k₁, v) :: updateAt k f t

/-!
### The email validator

`UserCreate.simple_email` runs `re.match(r"[^@]+@[^@]+\.[^@]+", v)` and, on
success, stores `v.lower().strip()`.  `re.match` anchors at the start of the
string only, so acceptance means: some initial segment of the string has the
form `[^@]+ '@' [^@]+ '.' [^@]`.  The first `[^@]+` is forced to be exactly
the characters before the first `'@'`.
-/

/-- Whether the list starts with a character other than `'@'`. -/
def headNonAt : List Char → Bool
  | d :: _ => decide (d ≠ '@')
  | [] => false

/-- After `[^@]+ '@'` and one further non-`'@'` character have been consumed:
scan for a `'.'` that is followed by a non-`'@'` character, crossing only
non-`'@'` characters. -/
def emailDotScan : List Char → Bool
  | [] => false
  | c :: t =>
    if c = '@' then false
    else if c = '.' then headNonAt t || emailDotScan t
    else emailDotScan t

/-- Match `[^@]+ '.' [^@]` against an initial segment of the list. -/
def emailAfterAt : List Char → Bool
  | [] => false
  | c :: t => decide (c ≠ '@') && emailDotScan t

/-- Python's `str.lower()`, character by character. -/
def pyLower (s : String) : String := ⟨s.data.map Char.toLower⟩

/-- Python's `str.strip()`: drop whitespace from both ends. -/
def pyStrip (s : String) : String :=
  ⟨((s.data.dropWhile Char.isWhitespace).reverse.dropWhile Char.isWhitespace).reverse⟩

/-- `re.match(r"[^@]+@[^@]+\.[^@]+", v) is not None`, the acceptance test of
`UserCreate.simple_email`. -/
def emailAccept (v : String) : Bool :=
  let cs := v.data
  let a := cs.takeWhile (fun c => c ≠ '@')
  let rest := cs.dropWhile (fun c => c ≠ '@')
  decide (a ≠ []) &&
  (match rest with
   | '@' :: t => emailAfterAt t
   | _ => false)

/-!
### The storage helpers (`*_store`, `update_user_points`,
`set_item_availability`), in-memory branches.
-/

/-- `create_user_store`: insert `{"name": ..., "email": ..., "points": 0}` at
a fresh id and return the created document. -/
def create_user_store (fresh name email : String) (s : Store) : Store × UserDoc :=
  let doc : UserDoc := ⟨name, email, 0⟩
  ({ s with users := dictInsert fresh doc s.users }, doc)

/-- `get_user_store`: `_mem_users.get(user_id)`. -/
def get_user_store (user_id : String) (s : Store) : Option UserDoc :=
  alookup user_id s.users

/-- `update_user_points`: add `delta` to the user's points; report whether the
id resolved. -/
def update_user_points (user_id : String) (delta : Int) (s : Store) : Store × Bool :=
  match alookup user_id s.users with
  | none => (s, false)
  | some _ =>
    ({ s with users := updateAt user_id (fun u => { u with points := u.points + delta }) s.users },
     true)

/-- `create_item_store`: insert the item with `available = True` at a fresh id
and return the created document. -/
def create_item_store (fresh : String) (item : ItemCreate) (s : Store) : Store × ItemDoc :=
  let doc : ItemDoc := ⟨item.name, item.description, item.owner_id, true⟩
  ({ s with items := dictInsert fresh doc s.items }, doc)

/-- `get_item_store`: `_mem_items.get(item_id)`. -/
def get_item_store (item_id : String) (s : Store) : Option ItemDoc :=
  alookup item_id s.items

/-- `set_item_availability`: set the `available` flag of the item at `item_id`;
report whether the id resolved. -/
def set_item_availability (item_id : String) (available : Bool) (s : Store) : Store × Bool :=
  match alookup item_id s.items with
  | none => (s, false)
  | some _ =>
    ({ s with items := updateAt item_id (fun i => { i with available := available }) s.items },
     true)

/-- `create_loan_store`: insert `{"item_id": ..., "borrower_id": ...}` at a
fresh id and return the created document. -/
def create_loan_store (fresh : String) (loan : LoanCreate) (s : Store) : Store × LoanDoc :=
  let doc : LoanDoc := ⟨loan.item_id, loan.borrower_id⟩
  ({ s with loans := dictInsert fresh doc s.loans }, doc)

/-!
### The handlers

Each handler takes the store, and returns the store it leaves behind together
with its outcome.  `fresh` stands for the `uuid4` id generated by `_new_id`.
-/

/-- `POST /users/`: pydantic validates `name` (min length 1) and the email
shape, normalises the email to `v.lower().strip()`, then `create_user_store`
persists the user. -/
def create_user (fresh name email : String) (s : Store) :
    Store × Except ApiError UserDoc :=
  if name.isEmpty then (s, .error .validation)
  else if emailAccept email then
    let (s₁, doc) := create_user_store fresh name (pyStrip (pyLower email)) s
    (s₁, .ok doc)
  else (s, .error .validation)

/-- `POST /items/`: 404 when `owner_id` does not resolve; otherwise persist
the item and credit the owner `POINTS_FOR_LENDING` points. -/
def create_item (fresh : String) (item : ItemCreate) (s : Store) :
    Store × Except ApiError ItemDoc :=
  match get_user_store item.owner_id s with
  | none => (s, .error .notFound)
  | some _ =>
    let (s₁, doc) := create_item_store fresh item s
    let (s₂, _) := update_user_points item.owner_id POINTS_FOR_LENDING s₁
    (s₂, .ok doc)

/-- `POST /loans/`: resolve the item (404), check availability (409), resolve
the borrower (404), check points (403), then flip availability, debit the
borrower and record the loan. -/
def borrow_item (fresh : String) (loan : LoanCreate) (s : Store) :
    Store × Except ApiError Unit :=
  match get_item_store loan.item_id s with
  | none => (s, .error .notFound)
  | some item =>
    if !item.available then (s, .error .conflict)
    else
      match get_user_store loan.borrower_id s with
      | none => (s, .error .notFound)
      | some borrower =>
        if borrower.points < POINTS_FOR_BORROW then (s, .error .insufficientPoints)
        else
          match set_item_availability loan.item_id false s with
          | (s₁, false) => (s₁, .error .internal)
          | (s₁, true) =>
            let (s₂, _) := update_user_points loan.borrower_id (-POINTS_FOR_BORROW) s₁
            let (s₃, _) := create_loan_store fresh loan s₂
            (s₃, .ok ())

/-- `POST /loans/return/{item_id}`: resolve the item (404), then set its
availability to true unconditionally. -/
def return_item (item_id : String) (s : Store) : Store × Except ApiError Unit :=
  match get_item_store item_id s with
  | none => (s, .error .notFound)
  | some _ =>
    match set_item_availability item_id true s with
    | (s₁, false) => (s₁, .error .internal)
    | (s₁, true) => (s₁, .ok ())

/-!
### Email shape predicates

`emailWholeShape` follows the spec's words (`text@text.text` as the shape of
the whole submitted email); `emailStartShape` describes what the code's
`re.match` call actually tests, namely that an initial segment of the email
has that shape.
-/

/-- The spec's email shape, read over the whole string: the email is
`text@text.text`, three nonempty `'@'`-free segments joined by `'@'` and
`'.'`. -/
def emailWholeShape (v : String) : Prop :=
  ∃ a b c : List Char, v.data = a ++ '@' :: (b ++ '.' :: c) ∧
    a ≠ [] ∧ b ≠ [] ∧ c ≠ [] ∧ '@' ∉ a ∧ '@' ∉ b ∧ '@' ∉ c

/-- The shape the code's anchored, non-exhaustive `re.match` tests: some
initial segment of the email is `text@text.` followed by one further
non-`'@'` character; the rest of the string is unconstrained. -/
def emailStartShape (v : String) : Prop :=
  ∃ (a b : List Char) (d : Char) (r : List Char),
    v.data = a ++ '@' :: (b ++ '.' :: d :: r) ∧
    a ≠ [] ∧ b ≠ [] ∧ '@' ∉ a ∧ '@' ∉ b ∧ d ≠ '@'

/-!
### Operation traces

The reachable states of the service are those obtained from the empty store
by a sequence of handler calls.  `applyOp` is one handler call (the store it
leaves behind, whether or not the call succeeded); `validFrom` additionally
requires each generated `uuid4` id to be fresh for its collection, which is
what `_new_id` guarantees in practice.
-/

/-- One API call, with the id `_new_id` generated for it where applicable. -/
inductive Op where
  | register (fresh name email : String)
  | createItem (fresh : String) (item : ItemCreate)
  | borrow (fresh : String) (loan : LoanCreate)
  | ret (item_id : String)
deriving Repr, DecidableEq

/-- The store an API call leaves behind (failed calls leave the store as the
handler left it, which for every error path is the store it was given). -/
def applyOp (op : Op) (s : Store) : Store :=
  match op with
  | .register f n e => (create_user f n e s).1
  | .createItem f it => (create_item f it s).1
  | .borrow f l => (borrow_item f l s).1
  | .ret i => (return_item i s).1

/-- Run a trace of API calls from a store. -/
def execFrom (s : Store) : List Op → Store
  | [] => s
  | op :: t => execFrom (applyOp op s) t

/-- The generated id of the call is not already a key of its collection. -/
def freshOk (op : Op) (s : Store) : Bool :=
  match op with
  | .register f _ _ => (alookup f s.users).isNone
  | .createItem f _ => (alookup f s.items).isNone
  | .borrow f _ => (alookup f s.loans).isNone
  | .ret _ => true

/-- Every call in the trace uses a fresh generated id. -/
def validFrom (s : Store) : List Op → Bool
  | [] => true
  | op :: t => freshOk op s && validFrom (applyOp op s) t

/-- Whether a handler outcome is a success. -/
def isOk : Except ApiError α → Bool
  | .ok _ => true
  | .error _ => false

/-- There is a borrow of item `x` in the trace that succeeds (hence creates a
loan record for `x`) and is not followed by a later return call for `x`:
the claim's "loan record for that item not matched by a subsequent return". -/
def unmatchedBorrow (x : String) : List Op → Store → Bool
  | [], _ => false
  | op :: t, s =>
    (match op with
     | .borrow f l => decide (l.item_id = x) && isOk (borrow_item f l s).2 &&
         !(decide (Op.ret x ∈ t))
     | _ => false)
    || unmatchedBorrow x t (applyOp op s)

/-- A store holding one item, owned by `"u0"`, already on loan, and no
users: the borrower existence check is never reached because the
availability check fires first. -/
def unavailableStore : Store := ⟨[], [("i1", ⟨"book", none, "u0", false⟩)], []⟩

/-!
### Dictionary lemmas
-/

theorem alookup_dictInsert_self (k : String) (v : α) (l : List (String × α)) :
    alookup k (dictInsert k v l) = some v := by
  induction l with
  | nil => simp [alookup, dictInsert]
  | cons p t ih =>
    obtain ⟨k₁, v₁⟩ := p
    by_cases h : k₁ = k <;> simp [alookup, dictInsert, h, ih]

theorem alookup_dictInsert_ne (h : k₂ ≠ k) (v : α) (l : List (String × α)) :
    alookup k₂ (dictInsert k v l) = alookup k₂ l := by
  induction l with
  | nil => simp [alookup, dictInsert, h, Ne.symm h]
  | cons p t ih =>
    obtain ⟨k₁, v₁⟩ := p
    by_cases h₁ : k₁ = k
    · subst h₁
      simp [alookup, dictInsert, h, Ne.symm h]
    · by_cases h₂ : k₁ = k₂ <;> simp [alookup, dictInsert, h, h₁, h₂, ih]

theorem dictInsert_of_alookup_none (v : α) (h : alookup k l = none) :
    dictInsert k v l = l ++ [(k, v)] := by
  induction l with
  | nil => simp [dictInsert]
  | cons p t ih =>
    obtain ⟨k₁, v₁⟩ := p
    by_cases h₁ : k₁ = k
    · simp [alookup, h₁] at h
    · simp [alookup, h₁] at h
      simp [dictInsert, h₁, ih h]

theorem alookup_updateAt_self (k : String) (f : α → α) (l : List (String × α)) :
    alookup k (updateAt k f l) = (alookup k l).map f := by
  induction l with
  | nil => simp [alookup, updateAt]
  | cons p t ih =>
    obtain ⟨k₁, v₁⟩ := p
    by_cases h : k₁ = k <;> simp [alookup, updateAt, h, ih]

theorem alookup_updateAt_ne (h : k₂ ≠ k) (f : α → α) (l : List (String × α)) :
    alookup k₂ (updateAt k f l) = alookup k₂ l := by
  induction l with
  | nil => simp [updateAt]
  | cons p t ih =>
    obtain ⟨k₁, v₁⟩ := p
    by_cases h₁ : k₁ = k
    · subst h₁
      simp [alookup, updateAt, Ne.symm h]
    · by_cases h₂ : k₁ = k₂ <;> simp [alookup, updateAt, h, h₁, h₂, ih]

theorem alookup_dictInsert_isSome (k k₁ : String) (v : α) (l : List (String × α))
    (h : (alookup k l).isSome) : (alookup k (dictInsert k₁ v l)).isSome := by
  by_cases hk : k = k₁
  · subst hk
    simp [alookup_dictInsert_self]
  · rwa [alookup_dictInsert_ne hk]

theorem alookup_updateAt_isSome (k k₁ : String) (f : α → α) (l : List (String × α))
    (h : (alookup k l).isSome) : (alookup k (updateAt k₁ f l)).isSome := by
  by_cases hk : k = k₁
  · subst hk
    rw [alookup_updateAt_self]
    simpa using h
  · rwa [alookup_updateAt_ne hk]

/-!
### Handler unfolding lemmas
-/

theorem set_item_availability_some (item_id : String) (b : Bool) (s : Store) (it : ItemDoc)
    (hit : alookup item_id s.items = some it) :
    set_item_availability item_id b s =
      ({ s with items := updateAt item_id (fun i => { i with available := b }) s.items }, true) := by
  simp [set_item_availability, hit]

theorem update_user_points_some (user_id : String) (delta : Int) (s : Store) (u : UserDoc)
    (hu : alookup user_id s.users = some u) :
    update_user_points user_id delta s =
      ({ s with users := updateAt user_id (fun v => { v with points := v.points + delta }) s.users },
       true) := by
  simp [update_user_points, hu]

theorem borrow_item_success_store (s : Store) (fresh : String) (l : LoanCreate)
    (it : ItemDoc) (u : UserDoc)
    (hit : alookup l.item_id s.items = some it) (hav : it.available = true)
    (hu : alookup l.borrower_id s.users = some u) (hp : POINTS_FOR_BORROW ≤ u.points) :
    borrow_item fresh l s =
      ({ users := updateAt l.borrower_id
            (fun v => { v with points := v.points + -POINTS_FOR_BORROW }) s.users,
         items := updateAt l.item_id (fun i => { i with available := false }) s.items,
         loans := dictInsert fresh ⟨l.item_id, l.borrower_id⟩ s.loans }, .ok ()) := by
  have hset := set_item_availability_some l.item_id false s it hit
  have hupd := update_user_points_some l.borrower_id (-POINTS_FOR_BORROW)
    { s with items := updateAt l.item_id (fun i => { i with available := false }) s.items } u hu
  simp [borrow_item, get_item_store, get_user_store, hit, hav, hu, not_lt.mpr hp, hset, hupd,
    create_loan_store]

theorem borrow_item_ok_iff (s : Store) (fresh : String) (l : LoanCreate) :
    (borrow_item fresh l s).2 = .ok () ↔
      ∃ it u, alookup l.item_id s.items = some it ∧ it.available = true ∧
        alookup l.borrower_id s.users = some u ∧ POINTS_FOR_BORROW ≤ u.points := by
  cases hit : alookup l.item_id s.items with
  | none => simp [borrow_item, get_item_store, hit]
  | some it =>
    cases hav : it.available with
    | false => simp [borrow_item, get_item_store, hit, hav]
    | true =>
      cases hu : alookup l.borrower_id s.users with
      | none => simp [borrow_item, get_item_store, get_user_store, hit, hav, hu]
      | some u =>
        by_cases hp : u.points < POINTS_FOR_BORROW
        · simp [borrow_item, get_item_store, get_user_store, hit, hav, hu, hp]
        · rw [borrow_item_success_store s fresh l it u hit hav hu (not_lt.mp hp)]
          simp [hit, hav, hu, not_lt.mp hp]

/-- C5: for every stored state in which the referenced item exists and has
`available = false`, borrow fails with `ConflictError`, for every borrower id
and regardless of the borrower's points. -/
theorem borrow_unavailable_conflict (s : Store) (fresh : String) (l : LoanCreate)
    (it : ItemDoc) (hit : alookup l.item_id s.items = some it)
    (hav : it.available = false) :
    borrow_item fresh l s = (s, .error .conflict) := by
  simp [borrow_item, get_item_store, hit, hav]

/-- Witness for C5 at a concrete store: one unavailable item, any borrower. -/
theorem borrow_unavailable_conflict_witness :
    borrow_item "L1" ⟨"i1", "u1"⟩ unavailableStore = (unavailableStore, .error .conflict) :=
  borrow_unavailable_conflict unavailableStore "L1" ⟨"i1", "u1"⟩
    ⟨"book", none, "u0", false⟩ (by decide) rfl

/-- C10: when the item exists and is available and the borrower exists with
fewer than `POINTS_FOR_BORROW` points, borrow fails with
`InsufficientPointsError` and leaves the whole store unchanged. -/
theorem borrow_insufficient_points_atomic (s : Store) (fresh : String) (l : LoanCreate)
    (it : ItemDoc) (u : UserDoc)
    (hit : alookup l.item_id s.items = some it) (hav : it.available = true)
    (hu : alookup l.borrower_id s.users = some u) (hp : u.points < POINTS_FOR_BORROW) :
    borrow_item fresh l s = (s, .error .insufficientPoints) := by
  simp [borrow_item, get_item_store, get_user_store, hit, hav, hu, hp]

/-- Witness for C10: a zero-point borrower on an available item. -/
theorem borrow_insufficient_points_atomic_witness :
    borrow_item "L1" ⟨"i1", "u1"⟩
        ⟨[("u1", ⟨"bob", "b@c.d", 0⟩)], [("i1", ⟨"book", none, "u0", true⟩)], []⟩ =
      (⟨[("u1", ⟨"bob", "b@c.d", 0⟩)], [("i1", ⟨"book", none, "u0", true⟩)], []⟩,
       .error .insufficientPoints) :=
  borrow_insufficient_points_atomic _ "L1" ⟨"i1", "u1"⟩
    ⟨"book", none, "u0", true⟩ ⟨"bob", "b@c.d", 0⟩ (by decide) rfl (by decide) (by decide)

/-- C6, counterexample: with an existing unavailable item and a borrower id
that resolves to no user, borrow fails with `ConflictError`, not the
`NotFoundError` the claim requires — the availability check precedes the
borrower existence check. -/
theorem borrow_precedence_claim_false :
    alookup "u1" unavailableStore.users = none ∧
    alookup "i1" unavailableStore.items = some ⟨"book", none, "u0", false⟩ ∧
    borrow_item "L1" ⟨"i1", "u1"⟩ unavailableStore ≠ (unavailableStore, .error .notFound) ∧
    borrow_item "L1" ⟨"i1", "u1"⟩ unavailableStore = (unavailableStore, .error .conflict) := by
  decide

/-- C6, amended: the checks of borrow run in the order item existence (404),
item availability (409), borrower existence (404), borrower points (403);
each error fires exactly when the earlier checks pass and leaves the store
unchanged. -/
theorem borrow_error_precedence (s : Store) (fresh : String) (l : LoanCreate) :
    (alookup l.item_id s.items = none → borrow_item fresh l s = (s, .error .notFound)) ∧
    (∀ it, alookup l.item_id s.items = some it → it.available = false →
      borrow_item fresh l s = (s, .error .conflict)) ∧
    (∀ it, alookup l.item_id s.items = some it → it.available = true →
      alookup l.borrower_id s.users = none →
      borrow_item fresh l s = (s, .error .notFound)) ∧
    (∀ it u, alookup l.item_id s.items = some it → it.available = true →
      alookup l.borrower_id s.users = some u → u.points < POINTS_FOR_BORROW →
      borrow_item fresh l s = (s, .error .insufficientPoints)) := by
  refine ⟨fun h => ?_, fun it hit hav => ?_, fun it hit hav hu => ?_,
    fun it u hit hav hu hp => ?_⟩
  · simp [borrow_item, get_item_store, h]
  · simp [borrow_item, get_item_store, hit, hav]
  · simp [borrow_item, get_item_store, get_user_store, hit, hav, hu]
  · simp [borrow_item, get_item_store, get_user_store, hit, hav, hu, hp]

/-- Witness for C6's amended theorem: the borrower-existence 404 fires on an
available item with an unknown borrower. -/
theorem borrow_error_precedence_witness :
    borrow_item "L1" ⟨"i1", "u9"⟩ ⟨[], [("i1", ⟨"book", none, "u0", true⟩)], []⟩ =
      (⟨[], [("i1", ⟨"book", none, "u0", true⟩)], []⟩, .error .notFound) :=
  (borrow_error_precedence ⟨[], [("i1", ⟨"book", none, "u0", true⟩)], []⟩ "L1"
      ⟨"i1", "u9"⟩).2.2.1 ⟨"book", none, "u0", true⟩ (by decide) rfl (by decide)

/-- C7, counterexample: a borrow whose borrower id resolves to no user does
not always fail with `NotFoundError` — on an existing unavailable item it
fails with `ConflictError` (the store is still left unchanged). -/
theorem borrow_notfound_claim_false :
    alookup "u1" unavailableStore.users = none ∧
    (borrow_item "L1" ⟨"i1", "u1"⟩ unavailableStore).2 ≠ .error .notFound ∧
    (borrow_item "L1" ⟨"i1", "u1"⟩ unavailableStore).2 = .error .conflict := by
  decide

/-- C7, amended: a borrow whose item id or borrower id does not resolve fails
and leaves the whole store exactly unchanged; the error is `NotFoundError`
except when the item exists but is unavailable, where the earlier
availability check makes it `ConflictError`. -/
theorem borrow_missing_no_mutation (s : Store) (fresh : String) (l : LoanCreate)
    (h : alookup l.item_id s.items = none ∨ alookup l.borrower_id s.users = none) :
    (borrow_item fresh l s).1 = s ∧
    ((borrow_item fresh l s).2 = .error .notFound ∨
      ∃ it, alookup l.item_id s.items = some it ∧ it.available = false ∧
        (borrow_item fresh l s).2 = .error .conflict) := by
  cases hit : alookup l.item_id s.items with
  | none => simp [borrow_item, get_item_store, hit]
  | some it =>
    cases hav : it.available with
    | false =>
      have hres : borrow_item fresh l s = (s, .error .conflict) := by
        simp [borrow_item, get_item_store, hit, hav]
      rw [hres]
      exact ⟨rfl, Or.inr ⟨it, rfl, hav, rfl⟩⟩
    | true =>
      rcases h with h | h
      · rw [hit] at h
        exact absurd h (by simp)
      · simp [borrow_item, get_item_store, get_user_store, hit, hav, h]

/-- Witness for C7's amended theorem: unknown item id. -/
theorem borrow_missing_no_mutation_witness :
    (borrow_item "L1" ⟨"iX", "u1"⟩ unavailableStore).1 = unavailableStore ∧
    ((borrow_item "L1" ⟨"iX", "u1"⟩ unavailableStore).2 = .error .notFound ∨
      ∃ it, alookup "iX" unavailableStore.items = some it ∧ it.available = false ∧
        (borrow_item "L1" ⟨"iX", "u1"⟩ unavailableStore).2 = .error .conflict) :=
  borrow_missing_no_mutation unavailableStore "L1" ⟨"iX", "u1"⟩ (Or.inl (by decide))

/-- C2: returning an id that resolves to an existing item always succeeds and
sets that item's `available` flag to true whatever its prior value, changing
no other item and crediting no points (users and loans are untouched); an id
that resolves to no item fails with `NotFoundError`. -/
theorem return_item_correct (s : Store) (item_id : String) :
    (alookup item_id s.items = none → return_item item_id s = (s, .error .notFound)) ∧
    (∀ it, alookup item_id s.items = some it →
      (return_item item_id s).2 = .ok () ∧
      alookup item_id (return_item item_id s).1.items = some { it with available := true } ∧
      (∀ k, k ≠ item_id → alookup k (return_item item_id s).1.items = alookup k s.items) ∧
      (return_item item_id s).1.users = s.users ∧
      (return_item item_id s).1.loans = s.loans) := by
  constructor
  · intro h
    simp [return_item, get_item_store, h]
  · intro it hit
    have hres : return_item item_id s =
        ({ s with items := updateAt item_id (fun i => { i with available := true }) s.items },
         .ok ()) := by
      have hset := set_item_availability_some item_id true s it hit
      simp [return_item, get_item_store, hit, hset]
    rw [hres]
    refine ⟨rfl, ?_, fun k hk => alookup_updateAt_ne hk _ _, rfl, rfl⟩
    rw [alookup_updateAt_self, hit]
    rfl

/-- Witness for C2: returning an already-available item is a no-op success. -/
theorem return_item_correct_witness :
    (return_item "i1" ⟨[], [("i1", ⟨"book", none, "u0", true⟩)], []⟩).2 = .ok () ∧
    alookup "i1" (return_item "i1" ⟨[], [("i1", ⟨"book", none, "u0", true⟩)], []⟩).1.items =
      some ⟨"book", none, "u0", true⟩ ∧
    (return_item "i1" ⟨[], [("i1", ⟨"book", none, "u0", true⟩)], []⟩).1.users = [] ∧
    (return_item "i1" ⟨[], [("i1", ⟨"book", none, "u0", true⟩)], []⟩).1.loans = [] := by
  have h := (return_item_correct ⟨[], [("i1", ⟨"book", none, "u0", true⟩)], []⟩ "i1").2
    ⟨"book", none, "u0", true⟩ (by decide)
  exact ⟨h.1, h.2.1, h.2.2.2.1, h.2.2.2.2⟩

/-- C3: item creation fails with `NotFoundError` when the owner id resolves
to no user; on success the item is persisted with `available = true` and the
owner's points increase by exactly `POINTS_FOR_LENDING` (10), with no cap and
no other change to the store. -/
theorem create_item_correct (s : Store) (fresh : String) (it : ItemCreate) :
    (alookup it.owner_id s.users = none → create_item fresh it s = (s, .error .notFound)) ∧
    (∀ u, alookup it.owner_id s.users = some u →
      (create_item fresh it s).2 = .ok ⟨it.name, it.description, it.owner_id, true⟩ ∧
      alookup fresh (create_item fresh it s).1.items =
        some ⟨it.name, it.description, it.owner_id, true⟩ ∧
      (∀ k, k ≠ fresh → alookup k (create_item fresh it s).1.items = alookup k s.items) ∧
      alookup it.owner_id (create_item fresh it s).1.users =
        some { u with points := u.points + POINTS_FOR_LENDING } ∧
      (∀ k, k ≠ it.owner_id → alookup k (create_item fresh it s).1.users = alookup k s.users) ∧
      (create_item fresh it s).1.loans = s.loans) := by
  constructor
  · intro h
    simp [create_item, get_user_store, h]
  · intro u hu
    have hres : create_item fresh it s =
        ({ users := updateAt it.owner_id
              (fun v => { v with points := v.points + POINTS_FOR_LENDING }) s.users,
           items := dictInsert fresh ⟨it.name, it.description, it.owner_id, true⟩ s.items,
           loans := s.loans }, .ok ⟨it.name, it.description, it.owner_id, true⟩) := by
      have hupd := update_user_points_some it.owner_id POINTS_FOR_LENDING
        { s with items := dictInsert fresh ⟨it.name, it.description, it.owner_id, true⟩ s.items }
        u hu
      simp [create_item, get_user_store, hu, create_item_store, hupd]
    rw [hres]
    refine ⟨rfl, alookup_dictInsert_self .., fun k hk => alookup_dictInsert_ne hk .., ?_,
      fun k hk => alookup_updateAt_ne hk .., rfl⟩
    rw [alookup_updateAt_self, hu]
    rfl

/-- Witness for C3: creating an item for an existing owner credits 10 points. -/
theorem create_item_correct_witness :
    (create_item "i1" ⟨"book", none, "u1"⟩ ⟨[("u1", ⟨"ann", "a@b.c", 0⟩)], [], []⟩).2 =
      .ok ⟨"book", none, "u1", true⟩ ∧
    alookup "i1"
        (create_item "i1" ⟨"book", none, "u1"⟩ ⟨[("u1", ⟨"ann", "a@b.c", 0⟩)], [], []⟩).1.items =
      some ⟨"book", none, "u1", true⟩ ∧
    alookup "u1"
        (create_item "i1" ⟨"book", none, "u1"⟩ ⟨[("u1", ⟨"ann", "a@b.c", 0⟩)], [], []⟩).1.users =
      some ⟨"ann", "a@b.c", 10⟩ := by
  have h := (create_item_correct ⟨[("u1", ⟨"ann", "a@b.c", 0⟩)], [], []⟩ "i1"
    ⟨"book", none, "u1"⟩).2 ⟨"ann", "a@b.c", 0⟩ (by decide)
  exact ⟨h.1, h.2.1, h.2.2.2.1⟩

/-- C1: borrow succeeds exactly when the item exists and is available, the
borrower exists, and the borrower has at least `POINTS_FOR_BORROW` (5)
points; on success the borrower loses exactly 5 points, the item becomes
unavailable, exactly one loan record referencing that item and borrower is
appended under the fresh id, and nothing else changes. -/
theorem borrow_item_correct (s : Store) (fresh : String) (l : LoanCreate)
    (hf : alookup fresh s.loans = none) :
    ((borrow_item fresh l s).2 = .ok () ↔
      ∃ it u, alookup l.item_id s.items = some it ∧ it.available = true ∧
        alookup l.borrower_id s.users = some u ∧ POINTS_FOR_BORROW ≤ u.points) ∧
    (∀ it u, alookup l.item_id s.items = some it → it.available = true →
      alookup l.borrower_id s.users = some u → POINTS_FOR_BORROW ≤ u.points →
      alookup l.item_id (borrow_item fresh l s).1.items = some { it with available := false } ∧
      (∀ k, k ≠ l.item_id → alookup k (borrow_item fresh l s).1.items = alookup k s.items) ∧
      alookup l.borrower_id (borrow_item fresh l s).1.users =
        some { u with points := u.points - POINTS_FOR_BORROW } ∧
      (∀ k, k ≠ l.borrower_id → alookup k (borrow_item fresh l s).1.users = alookup k s.users) ∧
      (borrow_item fresh l s).1.loans = s.loans ++ [(fresh, ⟨l.item_id, l.borrower_id⟩)]) := by
  refine ⟨borrow_item_ok_iff s fresh l, fun it u hit hav hu hp => ?_⟩
  rw [borrow_item_success_store s fresh l it u hit hav hu hp]
  refine ⟨?_, fun k hk => alookup_updateAt_ne hk .., ?_,
    fun k hk => alookup_updateAt_ne hk .., dictInsert_of_alookup_none _ hf⟩
  · rw [alookup_updateAt_self, hit]
    rfl
  · rw [alookup_updateAt_self, hu]
    simp [sub_eq_add_neg]

/-- Witness for C1: a 10-point borrower borrows an available item; points
drop to 5, the item becomes unavailable, one loan is appended. -/
theorem borrow_item_correct_witness :
    ((borrow_item "L1" ⟨"i1", "u1"⟩
        ⟨[("u1", ⟨"bob", "b@c.d", 10⟩)], [("i1", ⟨"book", none, "u0", true⟩)], []⟩).2 = .ok ()) ∧
    alookup "u1" (borrow_item "L1" ⟨"i1", "u1"⟩
        ⟨[("u1", ⟨"bob", "b@c.d", 10⟩)], [("i1", ⟨"book", none, "u0", true⟩)], []⟩).1.users =
      some ⟨"bob", "b@c.d", 5⟩ ∧
    alookup "i1" (borrow_item "L1" ⟨"i1", "u1"⟩
        ⟨[("u1", ⟨"bob", "b@c.d", 10⟩)], [("i1", ⟨"book", none, "u0", true⟩)], []⟩).1.items =
      some ⟨"book", none, "u0", false⟩ ∧
    (borrow_item "L1" ⟨"i1", "u1"⟩
        ⟨[("u1", ⟨"bob", "b@c.d", 10⟩)], [("i1", ⟨"book", none, "u0", true⟩)], []⟩).1.loans =
      [("L1", ⟨"i1", "u1"⟩)] := by
  have h := borrow_item_correct
    ⟨[("u1", ⟨"bob", "b@c.d", 10⟩)], [("i1", ⟨"book", none, "u0", true⟩)], []⟩ "L1"
    ⟨"i1", "u1"⟩ (by decide)
  have h1 := h.1.mpr ⟨⟨"book", none, "u0", true⟩, ⟨"bob", "b@c.d", 10⟩, by decide, rfl,
    by decide, by decide⟩
  have h2 := h.2 ⟨"book", none, "u0", true⟩ ⟨"bob", "b@c.d", 10⟩ (by decide) rfl
    (by decide) (by decide)
  exact ⟨h1, h2.2.2.1, h2.1, h2.2.2.2.2⟩

/-!
### The email regex, characterised
-/

theorem emailDotScan_iff (t : List Char) :
    emailDotScan t = true ↔ ∃ b d r, t = b ++ '.' :: d :: r ∧ '@' ∉ b ∧ d ≠ '@' := by
  induction t with
  | nil => simp [emailDotScan]
  | cons c t ih =>
    constructor
    · intro h
      by_cases hc : c = '@'
      · simp [emailDotScan, hc] at h
      · by_cases hd : c = '.'
        · subst hd
          have h₂ : headNonAt t = true ∨ emailDotScan t = true := by
            simpa [emailDotScan, hc] using h
          rcases h₂ with h₂ | h₂
          · cases t with
            | nil => simp [headNonAt] at h₂
            | cons d r =>
              simp [headNonAt] at h₂
              exact ⟨[], d, r, rfl, by simp, h₂⟩
          · obtain ⟨b, d, r, hb, hnb, hda⟩ := ih.mp h₂
            exact ⟨'.' :: b, d, r, by simp [hb],
              by simp [hnb, show ('@' : Char) ≠ '.' from by decide], hda⟩
        · simp only [emailDotScan, if_neg hc, if_neg hd] at h
          obtain ⟨b, d, r, hb, hnb, hda⟩ := ih.mp h
          exact ⟨c :: b, d, r, by simp [hb], by simp [hnb, Ne.symm hc], hda⟩
    · rintro ⟨b, d, r, hb, hnb, hda⟩
      cases b with
      | nil =>
        simp only [List.nil_append, List.cons.injEq] at hb
        obtain ⟨hc, ht⟩ := hb
        subst hc
        subst ht
        simp [emailDotScan, headNonAt, hda]
      | cons x b₁ =>
        simp only [List.cons_append, List.cons.injEq] at hb
        obtain ⟨hx, ht⟩ := hb
        subst hx
        have hca : c ≠ '@' := fun hh => hnb (by simp [hh])
        have hrec : emailDotScan t = true :=
          ih.mpr ⟨b₁, d, r, ht, fun hm => hnb (List.mem_cons_of_mem _ hm), hda⟩
        by_cases hcd : c = '.' <;> simp [emailDotScan, hca, hcd, hrec]

theorem emailAfterAt_iff (t : List Char) :
    emailAfterAt t = true ↔
      ∃ b d r, t = b ++ '.' :: d :: r ∧ b ≠ [] ∧ '@' ∉ b ∧ d ≠ '@' := by
  cases t with
  | nil => simp [emailAfterAt]
  | cons c t =>
    simp only [emailAfterAt, Bool.and_eq_true, decide_eq_true_eq]
    constructor
    · rintro ⟨hc, h⟩
      obtain ⟨b, d, r, hb, hnb, hda⟩ := (emailDotScan_iff t).mp h
      exact ⟨c :: b, d, r, by simp [hb], by simp, by simp [hnb, Ne.symm hc], hda⟩
    · rintro ⟨b, d, r, hb, hne, hnb, hda⟩
      cases b with
      | nil => exact absurd rfl hne
      | cons x b₁ =>
        simp only [List.cons_append, List.cons.injEq] at hb
        obtain ⟨hx, ht⟩ := hb
        subst hx
        refine ⟨fun hh => hnb (by simp [hh]), ?_⟩
        exact (emailDotScan_iff t).mpr
          ⟨b₁, d, r, ht, fun hm => hnb (List.mem_cons_of_mem _ hm), hda⟩

theorem takeWhile_at_split (a rest : List Char) (ha : '@' ∉ a) :
    (a ++ '@' :: rest).takeWhile (fun c => c ≠ '@') = a ∧
    (a ++ '@' :: rest).dropWhile (fun c => c ≠ '@') = '@' :: rest := by
  induction a with
  | nil => simp [List.takeWhile_cons, List.dropWhile_cons]
  | cons x a₁ ih =>
    have hx : x ≠ '@' := fun hh => ha (by simp [hh])
    have ih₁ := ih (fun hm => ha (List.mem_cons_of_mem _ hm))
    simp only [List.cons_append, List.takeWhile_cons, List.dropWhile_cons]
    simp only [ne_eq, decide_not] at ih₁
    simp [hx, ih₁.1, ih₁.2]

/-- The code's acceptance test holds exactly when some initial segment of the
email has the `text@text.text` shape. -/
theorem emailAccept_iff (v : String) : emailAccept v = true ↔ emailStartShape v := by
  constructor
  · intro h
    simp only [emailAccept, Bool.and_eq_true, decide_eq_true_eq] at h
    obtain ⟨hne, hmatch⟩ := h
    cases hdrop : v.data.dropWhile (fun c => c ≠ '@') with
    | nil => rw [hdrop] at hmatch; simp at hmatch
    | cons c rest =>
      have hc : c = '@' := by
        have := List.head_dropWhile_not (p := fun c => c ≠ '@') (l := v.data)
        rw [hdrop] at this
        simpa using this (by simp)
      subst hc
      rw [hdrop] at hmatch
      obtain ⟨b, d, r, hb, hbne, hnb, hda⟩ := (emailAfterAt_iff rest).mp hmatch
      refine ⟨v.data.takeWhile (fun c => c ≠ '@'), b, d, r, ?_, hne, hbne, ?_, hnb, hda⟩
      · rw [← hb, ← hdrop, List.takeWhile_append_dropWhile]
      · intro hm
        have := List.mem_takeWhile_imp hm
        simp at this
  · rintro ⟨a, b, d, r, hv, hane, hbne, hna, hnb, hda⟩
    have hsplit := takeWhile_at_split a (b ++ '.' :: d :: r) hna
    simp only [emailAccept, hv, hsplit.1, hsplit.2, Bool.and_eq_true, decide_eq_true_eq]
    refine ⟨hane, ?_⟩
    exact (emailAfterAt_iff _).mpr ⟨b, d, r, rfl, hbne, hnb, hda⟩

/-- A whole-shape email contains exactly one `'@'`. -/
theorem emailWholeShape_count (v : String) (h : emailWholeShape v) :
    v.data.count '@' = 1 := by
  obtain ⟨a, b, c, hv, -, -, -, hna, hnb, hnc⟩ := h
  rw [hv]
  simp [List.count_append, List.count_cons, List.count_eq_zero.mpr hna,
    List.count_eq_zero.mpr hnb, List.count_eq_zero.mpr hnc]

/-- C4, counterexample: the email `"a@b.c@d"` does not have the
`text@text.text` shape (it contains two `'@'`), yet registration accepts it,
because `re.match` only requires an initial segment to match. -/
theorem email_shape_claim_false :
    ¬ emailWholeShape "a@b.c@d" ∧
    (create_user "u1" "ann" "a@b.c@d" emptyStore).2 = .ok ⟨"ann", "a@b.c@d", 0⟩ := by
  refine ⟨fun h => absurd (emailWholeShape_count _ h) (by decide), by decide⟩

/-- C4, amended: registration always fails with a validation error when no
initial segment of the email has the `text@text.text` shape (the code's
`re.match` is anchored at the start but does not require the match to reach
the end); every accepted registration stores the submitted email lowercased
and stripped of surrounding whitespace, with points 0. -/
theorem register_email_correct (fresh name email : String) (s : Store) :
    (¬ emailStartShape email → (create_user fresh name email s).2 = .error .validation) ∧
    (∀ s₁ u, create_user fresh name email s = (s₁, .ok u) →
      u.email = pyStrip (pyLower email) ∧ u.points = 0 ∧ alookup fresh s₁.users = some u) := by
  constructor
  · intro h
    have he : emailAccept email = false := by
      cases he₁ : emailAccept email
      · rfl
      · exact absurd ((emailAccept_iff email).mp he₁) h
    by_cases hn : name.isEmpty <;> simp [create_user, hn, he]
  · intro s₁ u hu
    by_cases hn : name.isEmpty
    · simp [create_user, hn] at hu
    · cases he : emailAccept email
      · simp [create_user, hn, he] at hu
      · simp only [create_user, hn, he, if_false, if_true, Bool.false_eq_true,
          create_user_store, Prod.mk.injEq] at hu
        obtain ⟨hs, hu₁⟩ := hu
        obtain ⟨rfl⟩ := Except.ok.inj hu₁.symm
        refine ⟨rfl, rfl, ?_⟩
        rw [← hs]
        exact alookup_dictInsert_self ..

/-- Witness for C4's amended theorem: `"abc"` is rejected; `" A@B.C"` is
accepted and stored as `"a@b.c"` with 0 points. -/
theorem register_email_correct_witness :
    (create_user "u1" "ann" "abc" emptyStore).2 = .error .validation ∧
    (⟨"ann", "a@b.c", 0⟩ : UserDoc).email = pyStrip (pyLower " A@B.C") ∧
    (⟨"ann", "a@b.c", 0⟩ : UserDoc).points = 0 ∧
    alookup "u2" (create_user "u2" "ann" " A@B.C" emptyStore).1.users =
      some ⟨"ann", "a@b.c", 0⟩ := by
  refine ⟨(register_email_correct "u1" "ann" "abc" emptyStore).1
    (fun h => absurd ((emailAccept_iff "abc").mpr h) (by decide)), ?_⟩
  exact (register_email_correct "u2" "ann" " A@B.C" emptyStore).2
    (create_user "u2" "ann" " A@B.C" emptyStore).1 ⟨"ann", "a@b.c", 0⟩ (by decide)

/-!
### Non-negativity of points along traces
-/

theorem points_nonneg_dictInsert (l : List (String × UserDoc)) (k : String) (v : UserDoc)
    (hv : 0 ≤ v.points) (h : ∀ uid u, alookup uid l = some u → 0 ≤ u.points) :
    ∀ uid u, alookup uid (dictInsert k v l) = some u → 0 ≤ u.points := by
  intro uid u hu
  by_cases hk : uid = k
  · subst hk
    rw [alookup_dictInsert_self] at hu
    obtain rfl := Option.some.inj hu
    exact hv
  · rw [alookup_dictInsert_ne hk] at hu
    exact h uid u hu

theorem points_nonneg_updateAt (l : List (String × UserDoc)) (k : String)
    (f : UserDoc → UserDoc) (hf : ∀ u, alookup k l = some u → 0 ≤ (f u).points)
    (h : ∀ uid u, alookup uid l = some u → 0 ≤ u.points) :
    ∀ uid u, alookup uid (updateAt k f l) = some u → 0 ≤ u.points := by
  intro uid u hu
  by_cases hk : uid = k
  · subst hk
    rw [alookup_updateAt_self] at hu
    cases hl : alookup uid l with
    | none => rw [hl] at hu; simp at hu
    | some w =>
      rw [hl] at hu
      simp only [Option.map_some'] at hu
      obtain rfl := Option.some.inj hu
      exact hf w hl
  · rw [alookup_updateAt_ne hk] at hu
    exact h uid u hu

theorem points_nonneg_step (op : Op) (s : Store)
    (h : ∀ uid u, alookup uid s.users = some u → 0 ≤ u.points) :
    ∀ uid u, alookup uid (applyOp op s).users = some u → 0 ≤ u.points := by
  cases op with
  | register f n e =>
    by_cases hn : n.isEmpty
    · simpa [applyOp, create_user, hn] using h
    · cases he : emailAccept e
      · simpa [applyOp, create_user, hn, he] using h
      · have husers : (applyOp (.register f n e) s).users =
            dictInsert f ⟨n, pyStrip (pyLower e), 0⟩ s.users := by
          simp [applyOp, create_user, hn, he, create_user_store]
        rw [husers]
        exact points_nonneg_dictInsert _ _ _ (le_refl 0) h
  | createItem f it =>
    cases ho : alookup it.owner_id s.users with
    | none => simpa [applyOp, create_item, get_user_store, ho] using h
    | some w =>
      have husers : (applyOp (.createItem f it) s).users =
          updateAt it.owner_id
            (fun v => { v with points := v.points + POINTS_FOR_LENDING }) s.users := by
        have hupd := update_user_points_some it.owner_id POINTS_FOR_LENDING
          { s with items := dictInsert f ⟨it.name, it.description, it.owner_id, true⟩ s.items }
          w ho
        simp [applyOp, create_item, get_user_store, ho, create_item_store, hupd]
      rw [husers]
      refine points_nonneg_updateAt _ _ _ (fun u hu => ?_) h
      have := h _ _ hu
      simp only [POINTS_FOR_LENDING]
      omega
  | borrow f l =>
    cases hit : alookup l.item_id s.items with
    | none => simpa [applyOp, borrow_item, get_item_store, hit] using h
    | some it =>
      cases hav : it.available with
      | false => simpa [applyOp, borrow_item, get_item_store, hit, hav] using h
      | true =>
        cases hu : alookup l.borrower_id s.users with
        | none =>
          simpa [applyOp, borrow_item, get_item_store, get_user_store, hit, hav, hu] using h
        | some w =>
          by_cases hp : w.points < POINTS_FOR_BORROW
          · simpa [applyOp, borrow_item, get_item_store, get_user_store, hit, hav, hu, hp]
              using h
          · have hres := borrow_item_success_store s f l it w hit hav hu (not_lt.mp hp)
            have husers : (applyOp (.borrow f l) s).users =
                updateAt l.borrower_id
                  (fun v => { v with points := v.points + -POINTS_FOR_BORROW }) s.users := by
              simp [applyOp, hres]
            rw [husers]
            refine points_nonneg_updateAt _ _ _ (fun u hu₂ => ?_) h
            rw [hu] at hu₂
            obtain rfl := Option.some.inj hu₂
            simp only [POINTS_FOR_BORROW] at hp ⊢
            omega
  | ret i =>
    cases hit : alookup i s.items with
    | none => simpa [applyOp, return_item, get_item_store, hit] using h
    | some it =>
      have hset := set_item_availability_some i true s it hit
      have husers : (applyOp (.ret i) s).users = s.users := by
        simp [applyOp, return_item, get_item_store, hit, hset]
      simpa [husers] using h

theorem points_nonneg_exec (t : List Op) :
    ∀ s, (∀ uid u, alookup uid s.users = some u → 0 ≤ u.points) →
      ∀ uid u, alookup uid (execFrom s t).users = some u → 0 ≤ u.points := by
  induction t with
  | nil => exact fun s h => h
  | cons op t ih => exact fun s h => ih _ (points_nonneg_step op s h)

/-- C8: in every state reachable from the empty store by a sequence of
register, item-create, borrow and return calls, every stored user has
non-negative points: registration starts at 0, item creation credits 10, and
the only debit is the borrow debit of 5, guarded by the `points >= 5`
check. -/
theorem points_nonneg (t : List Op) (uid : String) (u : UserDoc)
    (h : alookup uid (execFrom emptyStore t).users = some u) : 0 ≤ u.points :=
  points_nonneg_exec t emptyStore (fun uid₁ u₁ h₁ => by simp [emptyStore, alookup] at h₁)
    uid u h

/-- Witness for C8 on a concrete trace: register, earn 10 by lending, spend 5
by borrowing; the resulting balance 5 is non-negative. -/
theorem points_nonneg_witness :
    alookup "u1" (execFrom emptyStore
      [Op.register "u1" "ann" "a@b.c", Op.createItem "i1" ⟨"book", none, "u1"⟩,
       Op.borrow "L1" ⟨"i1", "u1"⟩]).users = some ⟨"ann", "a@b.c", 5⟩ ∧
    0 ≤ (⟨"ann", "a@b.c", 5⟩ : UserDoc).points :=
  ⟨by decide, points_nonneg
    [Op.register "u1" "ann" "a@b.c", Op.createItem "i1" ⟨"book", none, "u1"⟩,
     Op.borrow "L1" ⟨"i1", "u1"⟩] "u1" ⟨"ann", "a@b.c", 5⟩ (by decide)⟩

/-!
### Trace lemmas for the availability invariant
-/

theorem execFrom_append (t₁ t₂ : List Op) : ∀ s,
    execFrom s (t₁ ++ t₂) = execFrom (execFrom s t₁) t₂ := by
  induction t₁ with
  | nil => exact fun s => rfl
  | cons op t ih => exact fun s => by simp [execFrom, ih]

theorem validFrom_append (t₁ t₂ : List Op) : ∀ s,
    validFrom s (t₁ ++ t₂) = (validFrom s t₁ && validFrom (execFrom s t₁) t₂) := by
  induction t₁ with
  | nil => intro s; simp [validFrom, execFrom]
  | cons op t ih => intro s; simp [validFrom, execFrom, ih, Bool.and_assoc]

theorem isOk_eq_ok (e : Except ApiError Unit) (h : isOk e = true) : e = .ok () := by
  cases e with
  | ok u => cases u; rfl
  | error a => simp [isOk] at h

theorem borrow_item_fail (f : String) (l : LoanCreate) (s : Store)
    (h : isOk (borrow_item f l s).2 = false) : (borrow_item f l s).1 = s := by
  cases hit : alookup l.item_id s.items with
  | none => simp [borrow_item, get_item_store, hit]
  | some it =>
    cases hav : it.available with
    | false => simp [borrow_item, get_item_store, hit, hav]
    | true =>
      cases hu : alookup l.borrower_id s.users with
      | none => simp [borrow_item, get_item_store, get_user_store, hit, hav, hu]
      | some u =>
        by_cases hp : u.points < POINTS_FOR_BORROW
        · simp [borrow_item, get_item_store, get_user_store, hit, hav, hu, hp]
        · rw [borrow_item_success_store s f l it u hit hav hu (not_lt.mp hp)] at h
          simp [isOk] at h

theorem applyOp_register_items (f n e : String) (s : Store) :
    (applyOp (.register f n e) s).items = s.items := by
  by_cases hn : n.isEmpty
  · simp [applyOp, create_user, hn]
  · cases he : emailAccept e <;> simp [applyOp, create_user, create_user_store, hn, he]

theorem applyOp_createItem_items_none (f : String) (it : ItemCreate) (s : Store)
    (ho : alookup it.owner_id s.users = none) :
    (applyOp (.createItem f it) s).items = s.items := by
  simp [applyOp, create_item, get_user_store, ho]

theorem applyOp_createItem_items_some (f : String) (it : ItemCreate) (s : Store) (w : UserDoc)
    (ho : alookup it.owner_id s.users = some w) :
    (applyOp (.createItem f it) s).items =
      dictInsert f ⟨it.name, it.description, it.owner_id, true⟩ s.items := by
  have hupd := update_user_points_some it.owner_id POINTS_FOR_LENDING
    { s with items := dictInsert f ⟨it.name, it.description, it.owner_id, true⟩ s.items }
    w ho
  simp [applyOp, create_item, get_user_store, ho, create_item_store, hupd]

theorem applyOp_ret_items_none (i : String) (s : Store)
    (hit : alookup i s.items = none) : (applyOp (.ret i) s).items = s.items := by
  simp [applyOp, return_item, get_item_store, hit]

theorem applyOp_ret_items_some (i : String) (s : Store) (w : ItemDoc)
    (hit : alookup i s.items = some w) :
    (applyOp (.ret i) s).items =
      updateAt i (fun j => { j with available := true }) s.items := by
  have hset := set_item_availability_some i true s w hit
  simp [applyOp, return_item, get_item_store, hit, hset]

theorem applyOp_items_isSome (op : Op) (s : Store) (x : String)
    (h : (alookup x s.items).isSome) : (alookup x (applyOp op s).items).isSome := by
  cases op with
  | register f n e => rwa [applyOp_register_items]
  | createItem f it =>
    cases ho : alookup it.owner_id s.users with
    | none => rwa [applyOp_createItem_items_none f it s ho]
    | some w =>
      rw [applyOp_createItem_items_some f it s w ho]
      exact alookup_dictInsert_isSome _ _ _ _ h
  | borrow f l =>
    cases hok : isOk (borrow_item f l s).2 with
    | false =>
      have hst := borrow_item_fail f l s hok
      show (alookup x (borrow_item f l s).1.items).isSome
      rwa [hst]
    | true =>
      obtain ⟨it, u, hit, hav, hu, hp⟩ := (borrow_item_ok_iff s f l).mp (isOk_eq_ok _ hok)
      have hsucc := borrow_item_success_store s f l it u hit hav hu hp
      show (alookup x (borrow_item f l s).1.items).isSome
      rw [hsucc]
      exact alookup_updateAt_isSome _ _ _ _ h
  | ret i =>
    cases hit : alookup i s.items with
    | none => rwa [applyOp_ret_items_none i s hit]
    | some w =>
      rw [applyOp_ret_items_some i s w hit]
      exact alookup_updateAt_isSome _ _ _ _ h

theorem execFrom_items_isSome (t : List Op) : ∀ s x, (alookup x s.items).isSome →
    (alookup x (execFrom s t).items).isSome := by
  induction t with
  | nil => exact fun s x h => h
  | cons op t ih => exact fun s x h => ih _ x (applyOp_items_isSome op s x h)

theorem unmatchedBorrow_isSome (x : String) (t : List Op) : ∀ s,
    unmatchedBorrow x t s = true → (alookup x (execFrom s t).items).isSome := by
  induction t with
  | nil => intro s h; simp [unmatchedBorrow] at h
  | cons op t ih =>
    intro s h
    cases op with
    | borrow f l =>
      simp only [unmatchedBorrow, Bool.or_eq_true, Bool.and_eq_true,
        decide_eq_true_eq] at h
      rcases h with ⟨⟨hx, hok⟩, -⟩ | h
      · obtain ⟨it, u, hit, -, -, -⟩ := (borrow_item_ok_iff s f l).mp (isOk_eq_ok _ hok)
        rw [hx] at hit
        have h₀ : (alookup x s.items).isSome := by rw [hit]; rfl
        exact execFrom_items_isSome t _ x (applyOp_items_isSome (.borrow f l) s x h₀)
      · exact ih _ h
    | register f n e =>
      simp only [unmatchedBorrow, Bool.false_or] at h
      exact ih _ h
    | createItem f it =>
      simp only [unmatchedBorrow, Bool.false_or] at h
      exact ih _ h
    | ret i =>
      simp only [unmatchedBorrow, Bool.false_or] at h
      exact ih _ h

theorem unmatchedBorrow_snoc_ret_self (x : String) (t : List Op) : ∀ s,
    unmatchedBorrow x (t ++ [Op.ret x]) s = false := by
  induction t with
  | nil => intro s; simp [unmatchedBorrow]
  | cons op t ih =>
    intro s
    cases op with
    | borrow f l => simp [unmatchedBorrow, ih]
    | register f n e => simp [unmatchedBorrow, ih]
    | createItem f it => simp [unmatchedBorrow, ih]
    | ret i => simp [unmatchedBorrow, ih]

theorem unmatchedBorrow_snoc_other (x : String) (op : Op)
    (hb : ∀ f l, op ≠ Op.borrow f l) (hr : op ≠ Op.ret x) (t : List Op) : ∀ s,
    unmatchedBorrow x (t ++ [op]) s = unmatchedBorrow x t s := by
  induction t with
  | nil =>
    intro s
    cases op with
    | borrow f l => exact absurd rfl (hb f l)
    | register f n e => simp [unmatchedBorrow]
    | createItem f it => simp [unmatchedBorrow]
    | ret i => simp [unmatchedBorrow]
  | cons op₁ t ih =>
    intro s
    cases op₁ with
    | borrow f l =>
      have hmem : (Op.ret x ∈ t ++ [op]) ↔ (Op.ret x ∈ t) := by
        simp only [List.mem_append, List.mem_singleton]
        constructor
        · rintro (h | h)
          · exact h
          · exact absurd h.symm hr
        · exact Or.inl
      simp [unmatchedBorrow, ih, hmem]
    | register f n e => simp [unmatchedBorrow, ih]
    | createItem f it => simp [unmatchedBorrow, ih]
    | ret i => simp [unmatchedBorrow, ih]

theorem unmatchedBorrow_snoc_borrow (x f : String) (l : LoanCreate) (t : List Op) :
    ∀ s, unmatchedBorrow x (t ++ [Op.borrow f l]) s =
      (unmatchedBorrow x t s ||
        (decide (l.item_id = x) && isOk (borrow_item f l (execFrom s t)).2)) := by
  induction t with
  | nil => intro s; simp [unmatchedBorrow, execFrom]
  | cons op₁ t ih =>
    intro s
    cases op₁ with
    | borrow f₁ l₁ =>
      have hmem : (Op.ret x ∈ t ++ [Op.borrow f l]) ↔ (Op.ret x ∈ t) := by
        simp [List.mem_append]
      simp [unmatchedBorrow, ih, hmem, execFrom, Bool.or_assoc]
    | register f₁ n₁ e₁ => simp [unmatchedBorrow, ih, execFrom]
    | createItem f₁ it₁ => simp [unmatchedBorrow, ih, execFrom]
    | ret i₁ => simp [unmatchedBorrow, ih, execFrom]

theorem avail_iff_aux (t : List Op) : validFrom emptyStore t = true →
    ∀ x d, alookup x (execFrom emptyStore t).items = some d →
      (d.available = false ↔ unmatchedBorrow x t emptyStore = true) := by
  induction t using List.reverseRecOn with
  | nil =>
    intro _ x d hd
    simp [execFrom, emptyStore, alookup] at hd
  | append_singleton t op ih =>
    intro hv x d hd
    rw [validFrom_append] at hv
    simp only [Bool.and_eq_true] at hv
    obtain ⟨hvt, hvo⟩ := hv
    have hfr : freshOk op (execFrom emptyStore t) = true := by
      simpa [validFrom] using hvo
    rw [execFrom_append] at hd
    simp only [execFrom] at hd
    cases op with
    | register f n e =>
      rw [applyOp_register_items] at hd
      rw [unmatchedBorrow_snoc_other x _ (fun _ _ h => Op.noConfusion h)
        (fun h => Op.noConfusion h) t emptyStore]
      exact ih hvt x d hd
    | createItem f it =>
      have hfr₁ : alookup f (execFrom emptyStore t).items = none := by
        simpa [freshOk, Option.isNone_iff_eq_none] using hfr
      rw [unmatchedBorrow_snoc_other x _ (fun _ _ h => Op.noConfusion h)
        (fun h => Op.noConfusion h) t emptyStore]
      cases ho : alookup it.owner_id (execFrom emptyStore t).users with
      | none =>
        rw [applyOp_createItem_items_none f it _ ho] at hd
        exact ih hvt x d hd
      | some w =>
        rw [applyOp_createItem_items_some f it _ w ho] at hd
        by_cases hx : x = f
        · subst hx
          rw [alookup_dictInsert_self] at hd
          obtain rfl := Option.some.inj hd
          have hnub : ¬ unmatchedBorrow x t emptyStore = true := fun hu => by
            have hs := unmatchedBorrow_isSome x t emptyStore hu
            rw [hfr₁] at hs
            simp at hs
          simp [hnub]
        · rw [alookup_dictInsert_ne hx] at hd
          exact ih hvt x d hd
    | borrow f l =>
      rw [unmatchedBorrow_snoc_borrow x f l t emptyStore]
      cases hok : isOk (borrow_item f l (execFrom emptyStore t)).2 with
      | false =>
        have hst := borrow_item_fail f l _ hok
        have hap : applyOp (Op.borrow f l) (execFrom emptyStore t) =
            (borrow_item f l (execFrom emptyStore t)).1 := rfl
        rw [hap, hst] at hd
        simp only [hok, Bool.and_false, Bool.or_false]
        exact ih hvt x d hd
      | true =>
        obtain ⟨it, u, hit, hav, hu, hp⟩ :=
          (borrow_item_ok_iff _ f l).mp (isOk_eq_ok _ hok)
        have hsucc := borrow_item_success_store (execFrom emptyStore t) f l it u hit hav hu hp
        have hitems : (applyOp (Op.borrow f l) (execFrom emptyStore t)).items =
            updateAt l.item_id (fun i => { i with available := false })
              (execFrom emptyStore t).items := by
          simp [applyOp, hsucc]
        rw [hitems] at hd
        by_cases hx : x = l.item_id
        · subst hx
          rw [alookup_updateAt_self, hit] at hd
          simp only [Option.map_some'] at hd
          obtain rfl := Option.some.inj hd
          simp [hok]
        · rw [alookup_updateAt_ne hx] at hd
          have hxx : decide (l.item_id = x) = false := by
            simp [Ne.symm hx]
          simp only [hxx, Bool.false_and, Bool.or_false]
          exact ih hvt x d hd
    | ret i =>
      cases hit : alookup i (execFrom emptyStore t).items with
      | none =>
        rw [applyOp_ret_items_none i _ hit] at hd
        by_cases hx : x = i
        · subst hx
          rw [hit] at hd
          exact Option.noConfusion hd
        · rw [unmatchedBorrow_snoc_other x _ (fun _ _ h => Op.noConfusion h)
            (fun h => hx (Op.ret.inj h).symm) t emptyStore]
          exact ih hvt x d hd
      | some w =>
        rw [applyOp_ret_items_some i _ w hit] at hd
        by_cases hx : x = i
        · subst hx
          rw [alookup_updateAt_self, hit] at hd
          simp only [Option.map_some'] at hd
          obtain rfl := Option.some.inj hd
          rw [unmatchedBorrow_snoc_ret_self]
          simp
        · rw [alookup_updateAt_ne hx] at hd
          rw [unmatchedBorrow_snoc_other x _ (fun _ _ h => Op.noConfusion h)
            (fun h => hx (Op.ret.inj h).symm) t emptyStore]
          exact ih hvt x d hd

/-- C9: in every state reachable from the empty store by a valid trace of
API calls, a stored item's `available` flag is false exactly when some
successful borrow of that item in the trace is not followed by a later
return call for it — i.e. there is a loan record for the item not matched by
a subsequent return. -/
theorem available_iff_unmatched_loan (t : List Op) (x : String) (d : ItemDoc)
    (hv : validFrom emptyStore t = true)
    (hd : alookup x (execFrom emptyStore t).items = some d) :
    d.available = false ↔ unmatchedBorrow x t emptyStore = true :=
  avail_iff_aux t hv x d hd

/-- Witness for C9: two users lend one item each, then the second borrows the
first's item; that item ends unavailable and its borrow is unmatched. -/
theorem available_iff_unmatched_loan_witness :
    validFrom emptyStore
      [Op.register "u1" "ann" "a@b.c", Op.register "u2" "bob" "b@c.d",
       Op.createItem "i1" ⟨"book", none, "u1"⟩, Op.createItem "i2" ⟨"pen", none, "u2"⟩,
       Op.borrow "L1" ⟨"i1", "u2"⟩] = true ∧
    alookup "i1" (execFrom emptyStore
      [Op.register "u1" "ann" "a@b.c", Op.register "u2" "bob" "b@c.d",
       Op.createItem "i1" ⟨"book", none, "u1"⟩, Op.createItem "i2" ⟨"pen", none, "u2"⟩,
       Op.borrow "L1" ⟨"i1", "u2"⟩]).items = some ⟨"book", none, "u1", false⟩ ∧
    ((⟨"book", none, "u1", false⟩ : ItemDoc).available = false ↔
      unmatchedBorrow "i1"
        [Op.register "u1" "ann" "a@b.c", Op.register "u2" "bob" "b@c.d",
         Op.createItem "i1" ⟨"book", none, "u1"⟩, Op.createItem "i2" ⟨"pen", none, "u2"⟩,
         Op.borrow "L1" ⟨"i1", "u2"⟩] emptyStore = true) :=
  ⟨by decide, by decide,
    available_iff_unmatched_loan
      [Op.register "u1" "ann" "a@b.c", Op.register "u2" "bob" "b@c.d",
       Op.createItem "i1" ⟨"book", none, "u1"⟩, Op.createItem "i2" ⟨"pen", none, "u2"⟩,
       Op.borrow "L1" ⟨"i1", "u2"⟩] "i1" ⟨"book", none, "u1", false⟩
      (by decide) (by decide)⟩

end Ledger
